import Mathlib

/-
Shallow embedding of the review-workflow state engine of scripts/review.js
(cross-model adversarial review helper).  Pure functions of the source are
translated directly; the stateful commands (parse-round, finalize) are
modelled as explicit state-passing functions on the issue ledger, with the
file-system reads and writes represented by the input ledger and the
returned ledger.  JavaScript numbers used here are integer counters and
small integer ratios, modelled as Nat and Rat; JavaScript strings are
modelled as Lean String (a wrapper around List Char).
-/

set_option maxHeartbeats 1000000

deriving instance DecidableEq for Except

/- ------------------------------------------------------------------ -/
/- Text normalization and Jaccard similarity (normalizeText, tokenize,
   jaccardSimilarity of review.js lines 105-125). -/
/- ------------------------------------------------------------------ -/

/-- A word character in the sense of the regex class backslash-w:
ASCII letters, digits, underscore. -/
def isWordChar (c : Char) : Bool :=
  c.isAlphanum || c == '_'

/-- A whitespace character in the sense of the regex class backslash-s
(restricted to the common ASCII whitespace). -/
def isSpaceChar (c : Char) : Bool :=
  c == ' ' || c == '\t' || c == '\n' || c == '\r'

/-- One character step of normalizeText: lower-case, and replace anything
that is neither a word character nor whitespace by a space. -/
def normChar (c : Char) : Char :=
  let lc := c.toLower
  if !(isWordChar lc) && !(isSpaceChar lc) then ' ' else lc

/-- Split a character list into maximal runs of non-whitespace characters.
This composes the whitespace-collapse, trim and split-plus-filter steps of
normalizeText and tokenize, which together keep exactly these runs. -/
def splitWordsAux (acc : List Char) : List Char → List (List Char)
  | [] => if acc.isEmpty then [] else [acc.reverse]
  | c :: cs =>
    if isSpaceChar c then
      if acc.isEmpty then splitWordsAux [] cs else acc.reverse :: splitWordsAux [] cs
    else
      splitWordsAux (c :: acc) cs

def splitWords (l : List Char) : List (List Char) :=
  splitWordsAux [] l

/-- tokenize of review.js: the set of unique words of the normalized text. -/
def tokenize (text : String) : Finset String :=
  ((splitWords (text.data.map normChar)).map (fun l => String.mk l)).toFinset

/-- jaccardSimilarity of review.js.  The source computes with JavaScript
floating point numbers; all quantities here are ratios of small integers,
modelled exactly in Rat. -/
def jaccardSimilarity (a b : String) : ℚ :=
  let setA := tokenize a
  let setB := tokenize b
  if setA.card = 0 ∧ setB.card = 0 then 1
  else
    let intersection := (setA ∩ setB).card
    let union := setA.card + setB.card - intersection
    if union = 0 then 0 else (intersection : ℚ) / (union : ℚ)

/-- Math.round to two decimals, as applied to the similarity score:
Math.round rounds half toward positive infinity. -/
def round2 (q : ℚ) : ℚ :=
  (Rat.floor (q * 100 + 1 / 2) : ℚ) / 100

/- ------------------------------------------------------------------ -/
/- Issue identifiers (nextIssueId of review.js lines 130-137). -/
/- ------------------------------------------------------------------ -/

/-- Decimal digit character for a digit value below ten. -/
def digitChar (d : Nat) : Char :=
  if d = 0 then '0' else if d = 1 then '1' else if d = 2 then '2'
  else if d = 3 then '3' else if d = 4 then '4' else if d = 5 then '5'
  else if d = 6 then '6' else if d = 7 then '7' else if d = 8 then '8' else '9'

/-- Numeric value of a decimal digit character. -/
def charVal (c : Char) : Nat :=
  c.toNat - 48

/-- parseInt on a non-empty run of decimal digits. -/
def natOfDigits (l : List Char) : Nat :=
  l.foldl (fun acc c => 10 * acc + charVal c) 0

/-- Decimal representation of n, with explicit fuel for structural
recursion; empty for n equal to zero. -/
def natReprAux : Nat → Nat → List Char
  | 0, _ => []
  | fuel + 1, n =>
    if n = 0 then [] else natReprAux fuel (n / 10) ++ [digitChar (n % 10)]

/-- Decimal representation of n, as produced by the String conversion of a
nonnegative JavaScript number. -/
def natRepr (n : Nat) : List Char :=
  if n = 0 then ['0'] else natReprAux n n

/-- padStart(3, zero) of the source: left-pad to length three with zeros. -/
def padStart3 (s : List Char) : List Char :=
  List.replicate (3 - s.length) '0' ++ s

/-- The identifier string ISS-nnn rendered for numeric suffix n. -/
def renderId (n : Nat) : String :=
  String.mk ('I' :: 'S' :: 'S' :: '-' :: padStart3 (natRepr n))

/-- The maximal run of decimal digits at the front of a character list. -/
def leadingDigits : List Char → List Char
  | [] => []
  | c :: cs => if c.isDigit then c :: leadingDigits cs else []

/-- The regex match ISS-(digits) applied anywhere in a string: scan left to
right for the literal ISS- followed by at least one digit, and return the
value of the maximal digit run; none when there is no match. -/
def findIssueNum : List Char → Option Nat
  | [] => none
  | 'I' :: cs =>
    (match cs with
     | 'S' :: 'S' :: '-' :: rest =>
       let ds := leadingDigits rest
       if ds.isEmpty then findIssueNum cs else some (natOfDigits ds)
     | _ => findIssueNum cs)
  | _ :: cs => findIssueNum cs

/-- The numeric suffix the source extracts from an issue id: the regex
capture parsed as an integer, or zero when the regex does not match. -/
def issueNum (id : String) : Nat :=
  (findIssueNum id.data).getD 0

/- ------------------------------------------------------------------ -/
/- Data model: issues, submitted documents, validation
   (review.js lines 142-173 and the issue records of cmdParseRound). -/
/- ------------------------------------------------------------------ -/

/-- One tracked issue of the ledger (issues.json entry), exactly the record
built at review.js lines 361-371.  Severity and status are the literal
strings of the source. -/
structure Issue where
  id : String
  severity : String
  location : String
  problem : String
  fix : String
  status : String
  round_found : Nat
  round_resolved : Option Nat
  last_evidence : Option String
deriving DecidableEq

/-- One element of the prior_issues list of a submission.  The evidence
field is optional in the submission; an absent field is none. -/
structure PriorUpdate where
  id : String
  status : String
  evidence : Option String
deriving DecidableEq

/-- One element of the new_issues list of a submission. -/
structure NewIssue where
  severity : String
  location : String
  problem : String
  fix : String
deriving DecidableEq

/-- A submitted review response after JSON extraction.  The dynamic type
checks of the source (prior_issues must be an array, summary must be a
string, ids must be strings) are enforced by this embedding type; the
remaining content checks are in validateReviewResponse below. -/
structure ReviewResponse where
  verdict : String
  prior_issues : List PriorUpdate
  new_issues : List NewIssue
  summary : String
deriving DecidableEq

def VALID_VERDICTS : List String := ["APPROVED", "REVISE"]

def VALID_SEVERITIES : List String := ["CRITICAL", "HIGH", "MEDIUM", "LOW"]

/-- VALID_STATUSES of review.js line 144: the statuses a reviewer may
assign to a prior issue.  The source set has exactly these four members. -/
def VALID_STATUSES : List String := ["resolved", "still-open", "regressed", "not-applicable"]

/-- The error strings produced for one prior_issues element: a falsy
(empty) id, and a status outside VALID_STATUSES. -/
def priorIssueErrors (l : List PriorUpdate) : List String :=
  l.foldr
    (fun pu acc =>
      (if pu.id == "" then ["prior_issues id missing"] else []) ++
      (if VALID_STATUSES.contains pu.status then [] else ["prior_issues status invalid"]) ++ acc)
    []

/-- The error strings produced for one new_issues element: a severity
outside VALID_SEVERITIES, and falsy (empty) location, problem or fix. -/
def newIssueErrors (l : List NewIssue) : List String :=
  l.foldr
    (fun ni acc =>
      (if VALID_SEVERITIES.contains ni.severity then [] else ["new_issues severity invalid"]) ++
      (if ni.location == "" then ["new_issues location missing"] else []) ++
      (if ni.problem == "" then ["new_issues problem missing"] else []) ++
      (if ni.fix == "" then ["new_issues fix missing"] else []) ++ acc)
    []

/-- validateReviewResponse of review.js lines 146-173: collect the schema
errors of a submission, in source order. -/
def validateReviewResponse (obj : ReviewResponse) : List String :=
  (if VALID_VERDICTS.contains obj.verdict then [] else ["verdict must be APPROVED or REVISE"]) ++
  priorIssueErrors obj.prior_issues ++
  newIssueErrors obj.new_issues

/- ------------------------------------------------------------------ -/
/- Ledger operations (review.js lines 130-137, 222-227, 315-374). -/
/- ------------------------------------------------------------------ -/

/-- getOpenBlockers of review.js lines 222-227: the CRITICAL or HIGH
issues whose status is open, still-open or regressed. -/
def getOpenBlockers (issues : List Issue) : List Issue :=
  issues.filter (fun iss =>
    (iss.severity == "CRITICAL" || iss.severity == "HIGH") &&
    (iss.status == "open" || iss.status == "still-open" || iss.status == "regressed"))

/-- The maximum numeric suffix over the given issues, zero for an empty
list (the nums and max computation of nextIssueId). -/
def maxNum (issues : List Issue) : Nat :=
  (issues.map (fun iss => issueNum iss.id)).foldr max 0

/-- nextIssueId of review.js lines 130-137. -/
def nextIssueId (issues : List Issue) : String :=
  renderId (maxNum issues + 1)

/-- The JavaScript expression update.evidence or-else null: an absent or
empty-string evidence becomes none. -/
def orNull (s : Option String) : Option String :=
  match s with
  | some e => if e == "" then none else some e
  | none => none

/-- Application of one prior-issue update to a matching ledger issue
(review.js lines 323-328): overwrite the status, stamp round_resolved when
the new status is resolved or not-applicable, and overwrite
last_evidence. -/
def applyUpdate (round : Nat) (iss : Issue) (pu : PriorUpdate) : Issue :=
  let iss1 := { iss with status := pu.status }
  let iss2 :=
    if pu.status == "resolved" || pu.status == "not-applicable" then
      { iss1 with round_resolved := some round }
    else iss1
  { iss2 with last_evidence := orNull pu.evidence }

/-- The priorUpdateMap object of review.js lines 316-319, modelled as a
lookup in which a later list entry with the same id overwrites an earlier
one (JavaScript object assignment semantics for the string keys in use;
generated ledger ids never shadow object prototype members). -/
def priorLookup (updates : List PriorUpdate) (id : String) : Option PriorUpdate :=
  updates.foldl (fun acc pu => if pu.id == id then some pu else acc) none

/-- The prior-issue update pass of review.js lines 321-330. -/
def applyPriorUpdates (updates : List PriorUpdate) (round : Nat) (issues : List Issue) : List Issue :=
  issues.map (fun iss =>
    match priorLookup updates iss.id with
    | some pu => applyUpdate round iss pu
    | none => iss)

/-- The maxSim and dupOf accumulation of review.js lines 339-348: fold the
open issues in order, strictly improving the best similarity. -/
def bestMatch (problem : String) (openIssues : List Issue) : ℚ × Option String :=
  openIssues.foldl
    (fun acc iss =>
      let sim := jaccardSimilarity problem iss.problem
      if acc.1 < sim then (sim, some iss.id) else acc)
    (0, none)

/-- One dedup warning record (review.js lines 351-356). -/
structure DedupWarning where
  new_issue_index : Nat
  possible_duplicate_of : Option String
  similarity : ℚ
  note : String
deriving DecidableEq

/-- The mutable state of the new-issue registration loop of review.js
lines 337-374: the full ledger, the issues assigned this round, and the
dedup warnings. -/
structure RegState where
  issues : List Issue
  assigned : List Issue
  warnings : List DedupWarning
deriving DecidableEq

/-- One iteration of the registration loop (review.js lines 337-374).
The source threshold literal 0.6 is the exact rational six tenths, written
mkRat 6 10 here. -/
def registerStep (openIssues : List Issue) (round : Nat) (idx : Nat) (st : RegState)
    (ni : NewIssue) : RegState :=
  let ms := bestMatch ni.problem openIssues
  let warnings :=
    if mkRat 6 10 ≤ ms.1 then
      st.warnings ++
        [{ new_issue_index := idx
           possible_duplicate_of := ms.2
           similarity := round2 ms.1
           note := "New issue overlaps significantly with " ++ ms.2.getD "null" ++
                   ". Confirm if distinct." }]
    else st.warnings
  let newId := nextIssueId (st.issues ++ st.assigned)
  let newIssue : Issue :=
    { id := newId
      severity := ni.severity
      location := ni.location
      problem := ni.problem
      fix := ni.fix
      status := "open"
      round_found := round
      round_resolved := none
      last_evidence := none }
  { issues := st.issues ++ [newIssue]
    assigned := st.assigned ++ [newIssue]
    warnings := warnings }

/-- The full registration loop over the new_issues list, carrying the list
index as the source for-loop does. -/
def registerLoop (openIssues : List Issue) (round : Nat) : Nat → RegState → List NewIssue → RegState
  | _, st, [] => st
  | idx, st, ni :: rest =>
    registerLoop openIssues round (idx + 1) (registerStep openIssues round idx st ni) rest

/-- The persisted round-N-output record (review.js lines 389-397). -/
structure RoundOutput where
  round : Nat
  verdict : String
  reviewVerdict : String
  summary : String
  newIssues : List String
  dedupWarnings : List DedupWarning
  blockers : List String
deriving DecidableEq

/-- The failure modes of cmdParseRound before any ledger mutation: JSON
extraction failure, and schema validation failure. -/
inductive ParseRoundError where
  | extractionFailed (msg : String)
  | schemaFailed (errors : List String)
deriving DecidableEq

/-- cmdParseRound of review.js lines 286-432, as a function of the stored
ledger.  The raw response file and extractJson are input-output; the
extraction outcome is taken as a parameter (error when no JSON could be
extracted).  The returned ledger is the issues.json content after the
call: unchanged on either failure, the updated ledger on success. -/
def cmdParseRound (issues : List Issue) (round : Nat)
    (extracted : Except String ReviewResponse) :
    Except ParseRoundError RoundOutput × List Issue :=
  match extracted with
  | Except.error msg => (Except.error (ParseRoundError.extractionFailed msg), issues)
  | Except.ok parsed =>
    let schemaErrors := validateReviewResponse parsed
    if schemaErrors.isEmpty then
      let issues1 := applyPriorUpdates parsed.prior_issues round issues
      let openIssues := issues1.filter (fun i =>
        i.status == "open" || i.status == "still-open" || i.status == "regressed")
      let st := registerLoop openIssues round 0
        { issues := issues1, assigned := [], warnings := [] } parsed.new_issues
      let blockers := getOpenBlockers st.issues
      let finalVerdict :=
        if parsed.verdict == "APPROVED" && !blockers.isEmpty then "REVISE" else parsed.verdict
      (Except.ok
        { round := round
          verdict := finalVerdict
          reviewVerdict := parsed.verdict
          summary := parsed.summary
          newIssues := st.assigned.map (fun i => i.id)
          dedupWarnings := st.warnings
          blockers := blockers.map (fun i => i.id) },
       st.issues)
    else
      (Except.error (ParseRoundError.schemaFailed schemaErrors), issues)

/- ------------------------------------------------------------------ -/
/- Finalize (cmdFinalize of review.js lines 437-588). -/
/- ------------------------------------------------------------------ -/

/-- The ways cmdFinalize dies before mutating anything: open blockers with
no override reason, a reason below ten characters, an interactive
confirmation that is not the literal CONFIRM, and a non-interactive call
without the ci-force flag. -/
inductive FinalizeError where
  | blockersOpenNoReason
  | reasonTooShort
  | confirmNotReceived
  | ciForceRequired
deriving DecidableEq

/-- The force_approve_log audit record (review.js lines 498-505). -/
structure ForceApproveLog where
  actor : String
  reason : String
  timestamp : String
  unresolved_issues : List String
  tty_confirmed : Bool
  ci_force : Bool
deriving DecidableEq

/-- The per-severity counters of the summary (review.js lines 539-543). -/
structure SevCounts where
  critical : Nat
  high : Nat
  medium : Nat
  low : Nat
deriving DecidableEq

/-- Character-wise lower casing, as toLowerCase acts on these ASCII
severity strings. -/
def lowerStr (s : String) : String :=
  String.mk (s.data.map Char.toLower)

def sevCounts (issues : List Issue) : SevCounts :=
  { critical := issues.countP (fun iss => lowerStr iss.severity == "critical")
    high := issues.countP (fun iss => lowerStr iss.severity == "high")
    medium := issues.countP (fun iss => lowerStr iss.severity == "medium")
    low := issues.countP (fun iss => lowerStr iss.severity == "low") }

/-- The summary.json record (review.js lines 545-556), without the model
identity strings of meta (opaque to the engine). -/
structure Summary where
  rounds : Nat
  totalIssuesFound : Nat
  issuesBySeverity : SevCounts
  issuesResolved : Nat
  issuesUnresolved : Nat
  finalVerdict : String
  completedAt : String
  force_approve_log : Option ForceApproveLog
deriving DecidableEq

/-- The blocker rewrite of review.js lines 507-514: every ledger issue
whose id is among the blockers becomes force-approved, stamped with the
current round. -/
def forceApproveIssues (issues blockers : List Issue) (currentRound : Nat) : List Issue :=
  issues.map (fun iss =>
    if blockers.any (fun b => b.id == iss.id) then
      { iss with status := "force-approved", round_resolved := some currentRound }
    else iss)

/-- The summary construction of review.js lines 536-556, computed from the
ledger as saved (after any force-approve rewrite). -/
def mkSummary (issues : List Issue) (currentRound : Nat) (blockers : List Issue)
    (log : Option ForceApproveLog) (ts : String) : Summary :=
  let totalFound := issues.length
  let totalResolved := issues.countP (fun iss =>
    iss.status == "resolved" || iss.status == "not-applicable" || iss.status == "force-approved")
  { rounds := currentRound
    totalIssuesFound := totalFound
    issuesBySeverity := sevCounts issues
    issuesResolved := totalResolved
    issuesUnresolved := totalFound - totalResolved
    finalVerdict := if blockers ≠ [] ∧ log.isSome then "FORCE_APPROVED" else "APPROVED"
    completedAt := ts
    force_approve_log := log }

/-- The successful override tail of cmdFinalize: build the audit record,
rewrite the blockers, and emit the summary from the rewritten ledger. -/
def finalizeOverride (issues blockers : List Issue) (currentRound : Nat) (reason : String)
    (ciForce isTTY : Bool) (actor ts : String) :
    Except FinalizeError Summary × List Issue :=
  let log : ForceApproveLog :=
    { actor := actor
      reason := reason
      timestamp := ts
      unresolved_issues := blockers.map (fun iss => iss.id)
      tty_confirmed := isTTY && !ciForce
      ci_force := ciForce }
  let issues2 := forceApproveIssues issues blockers currentRound
  (Except.ok (mkSummary issues2 currentRound blockers (some log) ts), issues2)

/-- cmdFinalize of review.js lines 437-588, as a function of the stored
ledger.  Interactive state is passed in: isTTY tells whether stdin and
stdout are terminals, ttyInput is the line read at the interactive
confirmation prompt, actor is the USER or CI_ACTOR environment value and
ts the wall-clock timestamp.  The plan-file rendering of the source
(plan-final.md) is text output with no effect on ledger or summary and is
not modelled.  The returned ledger is the issues.json content after the
call: unchanged on every failure and on the blocker-free path, the
force-approved rewrite on a successful override. -/
def cmdFinalize (issues : List Issue) (currentRound : Nat) (overrideReason : Option String)
    (ciForce isTTY : Bool) (ttyInput actor ts : String) :
    Except FinalizeError Summary × List Issue :=
  let blockers := getOpenBlockers issues
  if blockers.isEmpty then
    (Except.ok (mkSummary issues currentRound blockers none ts), issues)
  else
    match overrideReason with
    | none => (Except.error FinalizeError.blockersOpenNoReason, issues)
    | some reason =>
      if reason.length < 10 then
        (Except.error FinalizeError.reasonTooShort, issues)
      else if isTTY && !ciForce then
        if ttyInput == "CONFIRM" then
          finalizeOverride issues blockers currentRound reason ciForce isTTY actor ts
        else
          (Except.error FinalizeError.confirmNotReceived, issues)
      else if !ciForce then
        (Except.error FinalizeError.ciForceRequired, issues)
      else
        finalizeOverride issues blockers currentRound reason ciForce isTTY actor ts

/- ------------------------------------------------------------------ -/
/- Sequences of engine operations on one workspace ledger. -/
/- ------------------------------------------------------------------ -/

/-- One engine invocation that can touch the issue ledger. -/
inductive Op where
  | parseRound (round : Nat) (extracted : Except String ReviewResponse)
  | finalize (currentRound : Nat) (overrideReason : Option String)
      (ciForce isTTY : Bool) (ttyInput actor ts : String)

/-- The ledger left on disk by one invocation. -/
def applyOp (issues : List Issue) : Op → List Issue
  | Op.parseRound round extracted => (cmdParseRound issues round extracted).2
  | Op.finalize currentRound reason ciForce isTTY ttyInput actor ts =>
    (cmdFinalize issues currentRound reason ciForce isTTY ttyInput actor ts).2

/-- The ledger after a sequence of invocations, starting from the given
ledger (init writes the empty list). -/
def processOps : List Op → List Issue → List Issue
  | [], issues => issues
  | op :: rest, issues => processOps rest (applyOp issues op)

/- ------------------------------------------------------------------ -/
/- Similarity estimator properties. -/
/- ------------------------------------------------------------------ -/

lemma union_size_eq (A B : Finset String) :
    A.card + B.card - (A ∩ B).card = (A ∪ B).card := by
  have h := Finset.card_union_add_card_inter A B
  omega

lemma jaccard_symm (a b : String) : jaccardSimilarity a b = jaccardSimilarity b a := by
  unfold jaccardSimilarity
  by_cases hA : (tokenize a).card = 0 <;> by_cases hB : (tokenize b).card = 0 <;>
    simp [hA, hB, Finset.inter_comm, Nat.add_comm]

lemma jaccard_bounds (a b : String) :
    0 ≤ jaccardSimilarity a b ∧ jaccardSimilarity a b ≤ 1 := by
  unfold jaccardSimilarity
  by_cases h : (tokenize a).card = 0 ∧ (tokenize b).card = 0
  · simp [h]
  · simp only [h, if_false]
    by_cases hu : (tokenize a).card + (tokenize b).card - (tokenize a ∩ tokenize b).card = 0
    · simp [hu]
    · simp only [hu, if_false]
      have h1 : (tokenize a ∩ tokenize b).card ≤ (tokenize a).card :=
        Finset.card_le_card Finset.inter_subset_left
      have h2 : (tokenize a ∩ tokenize b).card ≤ (tokenize b).card :=
        Finset.card_le_card Finset.inter_subset_right
      constructor
      · positivity
      · apply div_le_one_of_le₀
        · exact_mod_cast (by omega :
            (tokenize a ∩ tokenize b).card ≤
              (tokenize a).card + (tokenize b).card - (tokenize a ∩ tokenize b).card)
        · positivity

lemma jaccard_self (a : String) : jaccardSimilarity a a = 1 := by
  unfold jaccardSimilarity
  by_cases h : (tokenize a).card = 0
  · simp [h]
  · have hne : ¬ ((tokenize a).card = 0 ∧ (tokenize a).card = 0) := by tauto
    simp only [hne, if_false, Finset.inter_self]
    have hu : (tokenize a).card + (tokenize a).card - (tokenize a).card = (tokenize a).card := by
      omega
    rw [hu]
    simp only [h, if_false]
    exact div_self (by exact_mod_cast h)

lemma jaccard_both_empty (a b : String) (ha : tokenize a = ∅) (hb : tokenize b = ∅) :
    jaccardSimilarity a b = 1 := by
  unfold jaccardSimilarity
  simp [ha, hb]

lemma jaccard_one_empty (a b : String)
    (h : (tokenize a = ∅ ∧ tokenize b ≠ ∅) ∨ (tokenize a ≠ ∅ ∧ tokenize b = ∅)) :
    jaccardSimilarity a b = 0 := by
  unfold jaccardSimilarity
  rcases h with ⟨ha, hb⟩ | ⟨ha, hb⟩
  · rw [ha]
    have hb0 : (tokenize b).card ≠ 0 := by
      simpa [Finset.card_eq_zero] using hb
    simp [hb0]
  · rw [hb]
    have ha0 : (tokenize a).card ≠ 0 := by
      simpa [Finset.card_eq_zero] using ha
    simp [ha0]

/-- Claim C4: the similarity estimator is symmetric and its result lies in
the unit interval; it returns one on identical non-empty strings, returns
one when both inputs tokenize to the empty word set, and returns zero
when exactly one of the two tokenizes to the empty word set. -/
theorem c4_similarity_estimator_properties :
    (∀ a b, jaccardSimilarity a b = jaccardSimilarity b a) ∧
    (∀ a b, 0 ≤ jaccardSimilarity a b ∧ jaccardSimilarity a b ≤ 1) ∧
    (∀ a b, a = b → a ≠ "" → jaccardSimilarity a b = 1) ∧
    (∀ a b, tokenize a = ∅ → tokenize b = ∅ → jaccardSimilarity a b = 1) ∧
    (∀ a b, (tokenize a = ∅ ∧ tokenize b ≠ ∅) ∨ (tokenize a ≠ ∅ ∧ tokenize b = ∅) →
      jaccardSimilarity a b = 0) := by
  refine ⟨jaccard_symm, jaccard_bounds, ?_, jaccard_both_empty, jaccard_one_empty⟩
  intro a b hab _
  subst hab
  exact jaccard_self a

/-- Witness for C4: the identical-strings clause and the one-side-empty
clause evaluated at concrete inputs. -/
theorem c4_witness :
    jaccardSimilarity "no rate limiting" "no rate limiting" = 1 ∧
    jaccardSimilarity "" "abc" = 0 := by
  constructor
  · exact c4_similarity_estimator_properties.2.2.1 "no rate limiting" "no rate limiting" rfl
      (by decide)
  · exact c4_similarity_estimator_properties.2.2.2.2 "" "abc" (Or.inl ⟨by decide, by decide⟩)

/- Validator characterization helpers. -/

lemma priorIssueErrors_cons (pu : PriorUpdate) (rest : List PriorUpdate) :
    priorIssueErrors (pu :: rest) =
      ((if pu.id == "" then ["prior_issues id missing"] else []) ++
       (if VALID_STATUSES.contains pu.status then [] else ["prior_issues status invalid"])) ++
      priorIssueErrors rest := rfl

lemma priorIssueErrors_nil_iff (l : List PriorUpdate) :
    priorIssueErrors l = [] ↔
      ∀ pu ∈ l, pu.id ≠ "" ∧ VALID_STATUSES.contains pu.status = true := by
  induction l with
  | nil => simp [priorIssueErrors]
  | cons pu rest ih =>
    rw [priorIssueErrors_cons, List.append_eq_nil, List.append_eq_nil, ih,
      List.forall_mem_cons]
    constructor
    · rintro ⟨⟨h1, h2⟩, h3⟩
      refine ⟨⟨?_, ?_⟩, h3⟩
      · intro he
        rw [he] at h1
        simp at h1
      · by_contra hc
        rw [Bool.not_eq_true] at hc
        rw [hc] at h2
        simp at h2
    · rintro ⟨⟨h1, h2⟩, h3⟩
      refine ⟨⟨?_, ?_⟩, h3⟩
      · simp [h1]
      · rw [h2]
        simp

lemma newIssueErrors_cons (ni : NewIssue) (rest : List NewIssue) :
    newIssueErrors (ni :: rest) =
      ((((if VALID_SEVERITIES.contains ni.severity then [] else ["new_issues severity invalid"]) ++
         (if ni.location == "" then ["new_issues location missing"] else [])) ++
        (if ni.problem == "" then ["new_issues problem missing"] else [])) ++
       (if ni.fix == "" then ["new_issues fix missing"] else [])) ++
      newIssueErrors rest := rfl

lemma newIssueErrors_nil_iff (l : List NewIssue) :
    newIssueErrors l = [] ↔
      ∀ ni ∈ l, VALID_SEVERITIES.contains ni.severity = true ∧
        ni.location ≠ "" ∧ ni.problem ≠ "" ∧ ni.fix ≠ "" := by
  induction l with
  | nil => simp [newIssueErrors]
  | cons ni rest ih =>
    rw [newIssueErrors_cons, List.append_eq_nil, List.append_eq_nil, List.append_eq_nil,
      List.append_eq_nil, ih, List.forall_mem_cons]
    constructor
    · rintro ⟨⟨⟨⟨h1, h2⟩, h3⟩, h4⟩, h5⟩
      refine ⟨⟨?_, ?_, ?_, ?_⟩, h5⟩
      · by_contra hc
        rw [Bool.not_eq_true] at hc
        rw [hc] at h1
        simp at h1
      · intro he
        rw [he] at h2
        simp at h2
      · intro he
        rw [he] at h3
        simp at h3
      · intro he
        rw [he] at h4
        simp at h4
    · rintro ⟨⟨h1, h2, h3, h4⟩, h5⟩
      refine ⟨⟨⟨⟨?_, ?_⟩, ?_⟩, ?_⟩, h5⟩
      · rw [h1]
        simp
      · simp [h2]
      · simp [h3]
      · simp [h4]

lemma validate_nil_iff (obj : ReviewResponse) :
    validateReviewResponse obj = [] ↔
      VALID_VERDICTS.contains obj.verdict = true ∧
      priorIssueErrors obj.prior_issues = [] ∧
      newIssueErrors obj.new_issues = [] := by
  unfold validateReviewResponse
  by_cases hv : VALID_VERDICTS.contains obj.verdict
  · rw [hv]
    simp
  · rw [Bool.not_eq_true] at hv
    rw [hv]
    simp

lemma verdict_cases_of_contains {v : String}
    (h : VALID_VERDICTS.contains v = true) : v = "APPROVED" ∨ v = "REVISE" := by
  have h2 : List.elem v ["APPROVED", "REVISE"] = true := h
  simpa using List.elem_iff.mp h2

lemma statuses_cases_of_contains {s : String}
    (h : VALID_STATUSES.contains s = true) :
    s = "resolved" ∨ s = "still-open" ∨ s = "regressed" ∨ s = "not-applicable" := by
  have h2 : List.elem s ["resolved", "still-open", "regressed", "not-applicable"] = true := h
  simpa using List.elem_iff.mp h2

/-- Claim C1: in every successfully processed round, the recorded verdict
is REVISE whenever the post-update blockers set is non-empty, whatever the
reviewer submitted; when the blockers set is empty the recorded verdict
equals the submitted verdict. -/
theorem c1_gating_soundness (issues : List Issue) (round : Nat)
    (ex : Except String ReviewResponse) (out : RoundOutput) (post : List Issue)
    (h : cmdParseRound issues round ex = (Except.ok out, post)) :
    (getOpenBlockers post ≠ [] → out.verdict = "REVISE") ∧
    (getOpenBlockers post = [] → out.verdict = out.reviewVerdict) := by
  match ex with
  | Except.error m =>
    simp [cmdParseRound] at h
  | Except.ok parsed =>
    rw [cmdParseRound] at h
    by_cases hv : (validateReviewResponse parsed).isEmpty
    · rw [if_pos hv] at h
      simp only [Prod.mk.injEq, Except.ok.injEq] at h
      obtain ⟨hout, hpost⟩ := h
      subst hout
      subst hpost
      have hnil : validateReviewResponse parsed = [] := by
        simpa [List.isEmpty_iff] using hv
      have hverdict := verdict_cases_of_contains ((validate_nil_iff parsed).mp hnil).1
      constructor
      · intro hb
        simp only []
        by_cases hA : parsed.verdict == "APPROVED"
        · rw [if_pos]
          rw [Bool.and_eq_true, hA]
          refine ⟨rfl, ?_⟩
          simpa [List.isEmpty_iff] using hb
        · rw [if_neg]
          · rcases hverdict with hApp | hRev
            · exact absurd (by simp [hApp] : (parsed.verdict == "APPROVED") = true) hA
            · exact hRev
          · rw [Bool.and_eq_true]
            rintro ⟨hA2, _⟩
            exact hA hA2
      · intro hb
        simp only []
        rw [if_neg]
        rw [Bool.and_eq_true]
        rintro ⟨_, hne⟩
        rw [hb] at hne
        simp at hne
    · rw [if_neg hv] at h
      simp at h

/-- Concrete submission for the C1 witness: the reviewer claims APPROVED
while raising a CRITICAL issue. -/
def c1resp : ReviewResponse :=
  { verdict := "APPROVED", prior_issues := [],
    new_issues := [{ severity := "CRITICAL", location := "Core", problem := "Fatal flaw",
                     fix := "Fix it" }],
    summary := "one critical" }

def c1out : RoundOutput :=
  { round := 1, verdict := "REVISE", reviewVerdict := "APPROVED", summary := "one critical",
    newIssues := ["ISS-001"], dedupWarnings := [], blockers := ["ISS-001"] }

def c1post : List Issue :=
  [{ id := "ISS-001", severity := "CRITICAL", location := "Core", problem := "Fatal flaw",
     fix := "Fix it", status := "open", round_found := 1, round_resolved := none,
     last_evidence := none }]

/-- Witness for C1: on the concrete round above the blockers set is
non-empty and the recorded verdict is REVISE although APPROVED was
submitted. -/
theorem c1_witness :
    cmdParseRound [] 1 (Except.ok c1resp) = (Except.ok c1out, c1post) ∧
    getOpenBlockers c1post ≠ [] ∧ c1out.verdict = "REVISE" :=
  ⟨by decide, by decide,
    (c1_gating_soundness [] 1 (Except.ok c1resp) c1out c1post (by decide)).1 (by decide)⟩

/-- Claim C2: a submission that fails JSON extraction or schema validation
halts round processing with an error and leaves the ledger exactly as it
was before the call; no round outcome is produced. -/
theorem c2_validation_atomicity (issues : List Issue) (round : Nat)
    (ex : Except String ReviewResponse) :
    (∀ msg, ex = Except.error msg →
      cmdParseRound issues round ex =
        (Except.error (ParseRoundError.extractionFailed msg), issues)) ∧
    (∀ parsed, ex = Except.ok parsed → validateReviewResponse parsed ≠ [] →
      cmdParseRound issues round ex =
        (Except.error (ParseRoundError.schemaFailed (validateReviewResponse parsed)), issues)) := by
  constructor
  · rintro msg rfl
    rfl
  · rintro parsed rfl hne
    simp only [cmdParseRound]
    rw [if_neg]
    intro hemp
    exact hne (by simpa [List.isEmpty_iff] using hemp)

/-- Concrete invalid submission for the C2 witness. -/
def c2resp : ReviewResponse :=
  { verdict := "MAYBE", prior_issues := [], new_issues := [], summary := "x" }

/-- Witness for C2: the invalid verdict MAYBE fails schema validation and
an unparseable response fails extraction; both leave the ledger
unchanged. -/
theorem c2_witness :
    cmdParseRound [] 3 (Except.ok c2resp) =
      (Except.error (ParseRoundError.schemaFailed ["verdict must be APPROVED or REVISE"]), []) ∧
    cmdParseRound [] 3 (Except.error "no json") =
      (Except.error (ParseRoundError.extractionFailed "no json"), ([] : List Issue)) := by
  constructor
  · have h := (c2_validation_atomicity [] 3 (Except.ok c2resp)).2 c2resp rfl (by decide)
    rw [(by decide : validateReviewResponse c2resp = ["verdict must be APPROVED or REVISE"])] at h
    exact h
  · exact (c2_validation_atomicity [] 3 (Except.error "no json")).1 "no json" rfl

/-- Counterexample to C3 as stated: a single round on an empty ledger
containing two new issues with identical problem texts (similarity one,
far above the 0.6 threshold) produces no dedup warning at all, because
the open set used for comparison is snapshotted before the registration
loop; both issues are nonetheless registered. -/
theorem c3_counterexample :
    (cmdParseRound [] 1 (Except.ok
      { verdict := "REVISE", prior_issues := [],
        new_issues := [{ severity := "HIGH", location := "Auth",
                         problem := "no rate limiting on login", fix := "f1" },
                       { severity := "HIGH", location := "Auth",
                         problem := "no rate limiting on login", fix := "f2" }],
        summary := "s" })).1 = Except.ok
      { round := 1, verdict := "REVISE", reviewVerdict := "REVISE", summary := "s",
        newIssues := ["ISS-001", "ISS-002"], dedupWarnings := [],
        blockers := ["ISS-001", "ISS-002"] } ∧
    jaccardSimilarity "no rate limiting on login" "no rate limiting on login" = 1 :=
  ⟨by decide, jaccard_self "no rate limiting on login"⟩

/-- Counterexample to C6 as stated: a prior-issue update carrying a
non-empty id and the status force-approved, a member of the five-member
set demanded by the claim, is rejected by the validator with a schema
error for that element. -/
theorem c6_counterexample :
    validateReviewResponse
      { verdict := "APPROVED",
        prior_issues := [{ id := "ISS-001", status := "force-approved", evidence := none }],
        new_issues := [], summary := "ok" } = ["prior_issues status invalid"] := by
  decide

/-- Claim C6 (amended): the validator accepts a prior-issue update exactly
when it carries a non-empty id and a status drawn from the four-member
set resolved, still-open, regressed, not-applicable; any other status
value, including open and force-approved, yields a schema error for that
element. -/
theorem c6_amended_prior_status_validation (obj : ReviewResponse)
    (hv : VALID_VERDICTS.contains obj.verdict = true)
    (hn : newIssueErrors obj.new_issues = []) :
    validateReviewResponse obj = [] ↔
      ∀ pu ∈ obj.prior_issues, pu.id ≠ "" ∧ VALID_STATUSES.contains pu.status = true := by
  rw [validate_nil_iff, priorIssueErrors_nil_iff]
  simp [hv, hn]
  intro _
  have h2 : List.elem obj.verdict ["APPROVED", "REVISE"] = true := hv
  exact List.elem_iff.mp h2

/-- Concrete accepted response for the C6 witness. -/
def c6resp : ReviewResponse :=
  { verdict := "REVISE",
    prior_issues := [{ id := "ISS-001", status := "resolved", evidence := some "fixed" }],
    new_issues := [], summary := "ok" }

/-- Witness for the amended C6: a prior update with non-empty id and a
status in the four-member set is accepted. -/
theorem c6_witness : validateReviewResponse c6resp = [] :=
  (c6_amended_prior_status_validation c6resp (by decide) (by decide)).mpr (by decide)

/- The priorUpdateMap lookup returns the last matching update. -/

lemma priorLookup_append (updates : List PriorUpdate) (pu : PriorUpdate) (id : String) :
    priorLookup (updates ++ [pu]) id =
      if pu.id == id then some pu else priorLookup updates id := by
  unfold priorLookup
  rw [List.foldl_append]
  rfl

lemma priorLookup_eq_getLast_filter (updates : List PriorUpdate) (id : String) :
    priorLookup updates id = (updates.filter (fun pu => pu.id == id)).getLast? := by
  induction updates using List.reverseRecOn with
  | nil => rfl
  | append_singleton rest pu ih =>
    rw [priorLookup_append, List.filter_append]
    by_cases h : pu.id == id
    · rw [if_pos h]
      simp [h]
    · rw [if_neg h]
      simp [h, ih]

/-- Claim C10: when a submission lists several updates for the same issue
id, only the last occurrence takes effect; the resulting issue fields
(status, round_resolved, last_evidence) are those produced by the final
occurrence, and earlier occurrences leave no trace in the ledger. -/
theorem c10_last_duplicate_update_wins (updates : List PriorUpdate) (round : Nat)
    (issues : List Issue) :
    applyPriorUpdates updates round issues =
      issues.map (fun iss =>
        match (updates.filter (fun pu => pu.id == iss.id)).getLast? with
        | some pu => applyUpdate round iss pu
        | none => iss) := by
  unfold applyPriorUpdates
  refine List.map_congr_left ?_
  intro iss _
  rw [priorLookup_eq_getLast_filter]

/-- Claim C8: when blockers remain, finalize fails with an error, produces
no summary and leaves the ledger unchanged unless a valid override is
supplied (a reason of at least ten characters together with either the
interactive CONFIRM token or, non-interactively, the ci-force flag); a
missing reason, a reason below ten characters, and a missing force flag
in non-interactive mode each fail the invocation. -/
theorem c8_finalize_fails_closed (issues : List Issue) (currentRound : Nat)
    (overrideReason : Option String) (ciForce isTTY : Bool) (ttyInput actor ts : String)
    (hb : getOpenBlockers issues ≠ []) :
    ((overrideReason = none ∨
      (∃ r, overrideReason = some r ∧ r.length < 10) ∨
      (isTTY = false ∧ ciForce = false) ∨
      (isTTY = true ∧ ciForce = false ∧ ttyInput ≠ "CONFIRM")) →
      ∃ e, cmdFinalize issues currentRound overrideReason ciForce isTTY ttyInput actor ts =
        (Except.error e, issues)) ∧
    ((∃ r, overrideReason = some r ∧ 10 ≤ r.length) →
      ((isTTY = true ∧ ciForce = false ∧ ttyInput = "CONFIRM") ∨ ciForce = true) →
      ∃ s, (cmdFinalize issues currentRound overrideReason ciForce isTTY ttyInput actor ts).1 =
        Except.ok s) := by
  have hbe : (getOpenBlockers issues).isEmpty = false := by
    rw [Bool.eq_false_iff]
    intro h
    exact hb (List.isEmpty_iff.mp h)
  constructor
  · intro hfail
    cases overrideReason with
    | none =>
      exact ⟨FinalizeError.blockersOpenNoReason, by simp [cmdFinalize, hbe]⟩
    | some reason =>
      by_cases hlen : reason.length < 10
      · exact ⟨FinalizeError.reasonTooShort, by simp [cmdFinalize, hbe, hlen]⟩
      · rcases hfail with h | ⟨r, hr, hrlen⟩ | ⟨hT, hF⟩ | ⟨hT, hF, hc⟩
        · exact absurd h (by simp)
        · rw [Option.some.injEq] at hr
          subst hr
          exact absurd hrlen hlen
        · subst hT
          subst hF
          exact ⟨FinalizeError.ciForceRequired, by simp [cmdFinalize, hbe, hlen]⟩
        · subst hT
          subst hF
          exact ⟨FinalizeError.confirmNotReceived, by simp [cmdFinalize, hbe, hlen, hc]⟩
  · rintro ⟨r, rfl, hrlen⟩ hok
    have hlen : ¬ (r.length < 10) := by omega
    rcases hok with ⟨hT, hF, hc⟩ | hF
    · subst hT
      subst hF
      subst hc
      have heq : cmdFinalize issues currentRound (some r) false true "CONFIRM" actor ts =
          finalizeOverride issues (getOpenBlockers issues) currentRound r false true actor ts := by
        simp [cmdFinalize, hbe, hlen]
      rw [heq]
      exact ⟨_, rfl⟩
    · subst hF
      have heq : cmdFinalize issues currentRound (some r) true isTTY ttyInput actor ts =
          finalizeOverride issues (getOpenBlockers issues) currentRound r true isTTY actor ts := by
        simp [cmdFinalize, hbe, hlen]
      rw [heq]
      exact ⟨_, rfl⟩

/-- Concrete ledger with one open CRITICAL blocker for the C8 witness. -/
def c8issues : List Issue :=
  [{ id := "ISS-001", severity := "CRITICAL", location := "Core", problem := "Fatal flaw",
     fix := "Fix it", status := "open", round_found := 1, round_resolved := none,
     last_evidence := none }]

/-- Witness for C8: on the blocker ledger, a missing reason, a short
reason, and a missing ci-force flag in non-interactive mode each produce
an error with the ledger unchanged. -/
theorem c8_witness :
    (∃ e, cmdFinalize c8issues 1 none false false "" "a" "t" = (Except.error e, c8issues)) ∧
    (∃ e, cmdFinalize c8issues 1 (some "too short") false false "" "a" "t" =
      (Except.error e, c8issues)) ∧
    (∃ e, cmdFinalize c8issues 1 (some "reason long enough") false false "" "a" "t" =
      (Except.error e, c8issues)) := by
  refine ⟨?_, ?_, ?_⟩
  · exact (c8_finalize_fails_closed c8issues 1 none false false "" "a" "t" (by decide)).1
      (Or.inl rfl)
  · exact (c8_finalize_fails_closed c8issues 1 (some "too short") false false "" "a" "t"
      (by decide)).1 (Or.inr (Or.inl ⟨"too short", rfl, by decide⟩))
  · exact (c8_finalize_fails_closed c8issues 1 (some "reason long enough") false false "" "a" "t"
      (by decide)).1 (Or.inr (Or.inr (Or.inl ⟨rfl, rfl⟩)))

/- Postconditions of the force-approve rewrite. -/

lemma forceApproveIssues_spec (issues blockers : List Issue) (currentRound : Nat) :
    ∀ iss ∈ forceApproveIssues issues blockers currentRound,
      blockers.any (fun b => b.id == iss.id) = true →
      iss.status = "force-approved" ∧ iss.round_resolved = some currentRound := by
  intro iss hmem hany
  unfold forceApproveIssues at hmem
  rcases List.mem_map.mp hmem with ⟨src, hsrc, heq⟩
  by_cases h : blockers.any (fun b => b.id == src.id) = true
  · rw [if_pos h] at heq
    subst heq
    exact ⟨rfl, rfl⟩
  · rw [if_neg h] at heq
    subst heq
    exact absurd hany h

lemma finalizeOverride_ok (issues blockers : List Issue) (currentRound : Nat)
    (reason : String) (ciForce isTTY : Bool) (actor ts : String) (s : Summary)
    (hbne : blockers ≠ [])
    (hok : (finalizeOverride issues blockers currentRound reason ciForce isTTY actor ts).1 =
      Except.ok s) :
    s.finalVerdict = "FORCE_APPROVED" ∧
    (∃ log, s.force_approve_log = some log ∧
      log.unresolved_issues = blockers.map (fun iss => iss.id)) := by
  have hok2 : Except.ok (mkSummary (forceApproveIssues issues blockers currentRound)
      currentRound blockers
      (some { actor := actor, reason := reason, timestamp := ts,
              unresolved_issues := blockers.map (fun iss => iss.id),
              tty_confirmed := isTTY && !ciForce, ci_force := ciForce }) ts) =
      Except.ok s := hok
  have hs := Except.ok.inj hok2
  subst hs
  constructor
  · show (if blockers ≠ [] ∧ Option.isSome (some _) = true then "FORCE_APPROVED"
      else "APPROVED") = "FORCE_APPROVED"
    rw [if_pos ⟨hbne, rfl⟩]
  · exact ⟨_, rfl, rfl⟩

/-- Claim C9: after a successful force-approval override, the summary
verdict is FORCE_APPROVED, the audit record lists exactly the ids of the
issues that were blocking at finalize time, the saved ledger is the
force-approve rewrite of the input ledger, and every saved issue whose id
was among the blockers has status force-approved with round_resolved
equal to the current round. -/
theorem c9_force_approval_audit_completeness (issues : List Issue) (currentRound : Nat)
    (overrideReason : Option String) (ciForce isTTY : Bool) (ttyInput actor ts : String)
    (s : Summary)
    (hb : getOpenBlockers issues ≠ [])
    (hok : (cmdFinalize issues currentRound overrideReason ciForce isTTY ttyInput actor ts).1 =
      Except.ok s) :
    s.finalVerdict = "FORCE_APPROVED" ∧
    (∃ log, s.force_approve_log = some log ∧
      log.unresolved_issues = (getOpenBlockers issues).map (fun iss => iss.id)) ∧
    (cmdFinalize issues currentRound overrideReason ciForce isTTY ttyInput actor ts).2 =
      forceApproveIssues issues (getOpenBlockers issues) currentRound ∧
    (∀ iss ∈ (cmdFinalize issues currentRound overrideReason ciForce isTTY ttyInput actor ts).2,
      (getOpenBlockers issues).any (fun b => b.id == iss.id) = true →
      iss.status = "force-approved" ∧ iss.round_resolved = some currentRound) := by
  have hbe : (getOpenBlockers issues).isEmpty = false := by
    rw [Bool.eq_false_iff]
    intro h
    exact hb (List.isEmpty_iff.mp h)
  cases overrideReason with
  | none =>
    simp [cmdFinalize, hbe] at hok
  | some reason =>
    by_cases hlen : reason.length < 10
    · simp [cmdFinalize, hbe, hlen] at hok
    · by_cases hTB : (isTTY && !ciForce) = true
      · by_cases hc : (ttyInput == "CONFIRM") = true
        · have heq : cmdFinalize issues currentRound (some reason) ciForce isTTY ttyInput actor ts =
              finalizeOverride issues (getOpenBlockers issues) currentRound reason ciForce isTTY
                actor ts := by
            simp [cmdFinalize, hbe, hlen, hTB, hc]
          rw [heq] at hok ⊢
          rcases finalizeOverride_ok issues (getOpenBlockers issues) currentRound reason ciForce
              isTTY actor ts s hb hok with ⟨h1, h2⟩
          exact ⟨h1, h2, rfl, forceApproveIssues_spec issues (getOpenBlockers issues) currentRound⟩
        · rw [Bool.not_eq_true] at hc
          simp [cmdFinalize, hbe, hlen, hTB, hc] at hok
      · rw [Bool.not_eq_true] at hTB
        by_cases hcf : ciForce = true
        · have heq : cmdFinalize issues currentRound (some reason) ciForce isTTY ttyInput actor ts =
              finalizeOverride issues (getOpenBlockers issues) currentRound reason ciForce isTTY
                actor ts := by
            simp [cmdFinalize, hbe, hlen, hTB, hcf]
          rw [heq] at hok ⊢
          rcases finalizeOverride_ok issues (getOpenBlockers issues) currentRound reason ciForce
              isTTY actor ts s hb hok with ⟨h1, h2⟩
          exact ⟨h1, h2, rfl, forceApproveIssues_spec issues (getOpenBlockers issues) currentRound⟩
        · rw [Bool.not_eq_true] at hcf
          have hT : isTTY = false := by
            simp [hcf] at hTB
            exact hTB
          simp [cmdFinalize, hbe, hlen, hT, hcf] at hok

/-- Concrete ledger with one open CRITICAL blocker for the C9 witness. -/
def c9issues : List Issue :=
  [{ id := "ISS-001", severity := "CRITICAL", location := "Core", problem := "Fatal flaw",
     fix := "Fix it", status := "open", round_found := 1, round_resolved := none,
     last_evidence := none }]

/-- The summary produced by the concrete override of the C9 witness. -/
def c9summary : Summary :=
  { rounds := 1, totalIssuesFound := 1,
    issuesBySeverity := { critical := 1, high := 0, medium := 0, low := 0 },
    issuesResolved := 1, issuesUnresolved := 0, finalVerdict := "FORCE_APPROVED",
    completedAt := "t",
    force_approve_log := some
      { actor := "alice", reason := "needed for release", timestamp := "t",
        unresolved_issues := ["ISS-001"], tty_confirmed := false, ci_force := true } }

/-- Witness for C9: a concrete non-interactive override with the ci-force
flag on the one-blocker ledger. -/
theorem c9_witness :
    c9summary.finalVerdict = "FORCE_APPROVED" ∧
    (∃ log, c9summary.force_approve_log = some log ∧
      log.unresolved_issues = (getOpenBlockers c9issues).map (fun iss => iss.id)) ∧
    (cmdFinalize c9issues 1 (some "needed for release") true false "" "alice" "t").2 =
      forceApproveIssues c9issues (getOpenBlockers c9issues) 1 ∧
    (∀ iss ∈ (cmdFinalize c9issues 1 (some "needed for release") true false "" "alice" "t").2,
      (getOpenBlockers c9issues).any (fun b => b.id == iss.id) = true →
      iss.status = "force-approved" ∧ iss.round_resolved = some 1) :=
  c9_force_approval_audit_completeness c9issues 1 (some "needed for release") true false ""
    "alice" "t" c9summary (by decide) (by decide)

/- Decimal digits and the identifier round trip. -/

lemma charVal_digitChar (d : Nat) (h : d < 10) : charVal (digitChar d) = d := by
  interval_cases d <;> decide

lemma digitChar_isDigit (d : Nat) : (digitChar d).isDigit = true := by
  unfold digitChar
  split_ifs <;> decide

lemma natOfDigits_append_one (l : List Char) (c : Char) :
    natOfDigits (l ++ [c]) = 10 * natOfDigits l + charVal c := by
  unfold natOfDigits
  rw [List.foldl_append]
  rfl

lemma natOfDigits_reprAux (fuel : Nat) : ∀ n : Nat, n ≤ fuel →
    natOfDigits (natReprAux fuel n) = n := by
  induction fuel with
  | zero =>
    intro n h
    have h0 : n = 0 := by omega
    subst h0
    rfl
  | succ fuel ih =>
    intro n h
    by_cases hn : n = 0
    · subst hn
      rfl
    · rw [natReprAux, if_neg hn, natOfDigits_append_one]
      have hdiv : n / 10 ≤ fuel := by
        have : n / 10 < n := Nat.div_lt_self (Nat.pos_of_ne_zero hn) (by omega)
        omega
      rw [ih (n / 10) hdiv, charVal_digitChar (n % 10) (Nat.mod_lt n (by omega))]
      omega

lemma natOfDigits_cons_zero (l : List Char) :
    natOfDigits (('0' : Char) :: l) = natOfDigits l := rfl

lemma natOfDigits_replicate_zero (k : Nat) (l : List Char) :
    natOfDigits (List.replicate k '0' ++ l) = natOfDigits l := by
  induction k with
  | zero => rfl
  | succ k ih =>
    rw [List.replicate_succ, List.cons_append, natOfDigits_cons_zero, ih]

lemma natReprAux_ne_nil (fuel n : Nat) (h1 : 1 ≤ n) (h2 : n ≤ fuel) :
    natReprAux fuel n ≠ [] := by
  cases fuel with
  | zero => omega
  | succ fuel =>
    intro hc
    rw [natReprAux, if_neg (by omega)] at hc
    simp at hc

lemma natReprAux_all_digits (fuel : Nat) : ∀ n : Nat, ∀ c ∈ natReprAux fuel n,
    c.isDigit = true := by
  induction fuel with
  | zero =>
    intro n c hc
    simp [natReprAux] at hc
  | succ fuel ih =>
    intro n c hc
    rw [natReprAux] at hc
    by_cases hn : n = 0
    · rw [if_pos hn] at hc
      simp at hc
    · rw [if_neg hn] at hc
      rcases List.mem_append.mp hc with h | h
      · exact ih (n / 10) c h
      · rw [List.mem_singleton] at h
        subst h
        exact digitChar_isDigit _

lemma leadingDigits_all (l : List Char) (h : ∀ c ∈ l, c.isDigit = true) :
    leadingDigits l = l := by
  induction l with
  | nil => rfl
  | cons c cs ih =>
    rw [leadingDigits, if_pos (h c (by simp))]
    rw [ih (fun c2 hc2 => h c2 (by simp [hc2]))]

lemma findIssueNum_renderId (n : Nat) : findIssueNum (renderId n).data = some n := by
  have hdig : ∀ c ∈ padStart3 (natRepr n), c.isDigit = true := by
    intro c hc
    rcases List.mem_append.mp hc with h | h
    · rw [List.eq_of_mem_replicate h]
      decide
    · unfold natRepr at h
      by_cases hn : n = 0
      · rw [if_pos hn] at h
        rw [List.mem_singleton.mp h]
        decide
      · rw [if_neg hn] at h
        exact natReprAux_all_digits n n c h
  have hne : padStart3 (natRepr n) ≠ [] := by
    unfold padStart3
    intro hc
    rcases List.append_eq_nil.mp hc with ⟨h1, h2⟩
    unfold natRepr at h2
    by_cases hn : n = 0
    · rw [if_pos hn] at h2
      simp at h2
    · rw [if_neg hn] at h2
      exact natReprAux_ne_nil n n (by omega) le_rfl h2
  have hld : leadingDigits (padStart3 (natRepr n)) = padStart3 (natRepr n) :=
    leadingDigits_all _ hdig
  show findIssueNum ('I' :: 'S' :: 'S' :: '-' :: padStart3 (natRepr n)) = some n
  have hred : findIssueNum ('I' :: 'S' :: 'S' :: '-' :: padStart3 (natRepr n)) =
      (if (leadingDigits (padStart3 (natRepr n))).isEmpty then
        findIssueNum ('S' :: 'S' :: '-' :: padStart3 (natRepr n))
      else some (natOfDigits (leadingDigits (padStart3 (natRepr n))))) := rfl
  rw [hred, hld, if_neg (by simpa [List.isEmpty_iff] using hne)]
  congr 1
  unfold padStart3
  rw [natOfDigits_replicate_zero]
  unfold natRepr
  by_cases hn : n = 0
  · rw [if_pos hn]
    subst hn
    rfl
  · rw [if_neg hn]
    exact natOfDigits_reprAux n n le_rfl

lemma issueNum_renderId (n : Nat) : issueNum (renderId n) = n := by
  unfold issueNum
  rw [findIssueNum_renderId]
  rfl

/- Maximum-suffix arithmetic. -/

lemma foldr_max_init (l : List Nat) (a : Nat) :
    l.foldr max a = max (l.foldr max 0) a := by
  induction l with
  | nil => simp
  | cons x xs ih => simp [List.foldr_cons, ih, Nat.max_assoc]

lemma foldr_max_append (l1 l2 : List Nat) :
    (l1 ++ l2).foldr max 0 = max (l1.foldr max 0) (l2.foldr max 0) := by
  rw [List.foldr_append, foldr_max_init]

lemma le_foldr_max (l : List Nat) (x : Nat) (h : x ∈ l) : x ≤ l.foldr max 0 := by
  induction l with
  | nil => simp at h
  | cons y ys ih =>
    rw [List.foldr_cons]
    rcases List.mem_cons.mp h with rfl | h2
    · exact Nat.le_max_left _ _
    · exact le_trans (ih h2) (Nat.le_max_right _ _)

lemma foldr_max_le (l : List Nat) (m : Nat) (h : ∀ x ∈ l, x ≤ m) : l.foldr max 0 ≤ m := by
  induction l with
  | nil => simp
  | cons y ys ih =>
    rw [List.foldr_cons]
    exact Nat.max_le.mpr ⟨h y (by simp), ih (fun x hx => h x (by simp [hx]))⟩

lemma maxNum_append (l1 l2 : List Issue) :
    maxNum (l1 ++ l2) = max (maxNum l1) (maxNum l2) := by
  unfold maxNum
  rw [List.map_append, foldr_max_append]

lemma issueNum_le_maxNum (l : List Issue) (iss : Issue) (h : iss ∈ l) :
    issueNum iss.id ≤ maxNum l :=
  le_foldr_max _ _ (List.mem_map_of_mem _ h)

lemma maxNum_le (l : List Issue) (m : Nat) (h : ∀ iss ∈ l, issueNum iss.id ≤ m) :
    maxNum l ≤ m := by
  apply foldr_max_le
  intro x hx
  rcases List.mem_map.mp hx with ⟨iss, hiss, rfl⟩
  exact h iss hiss

lemma maxNum_append_subset (l1 l2 : List Issue) (h : ∀ a ∈ l2, a ∈ l1) :
    maxNum (l1 ++ l2) = maxNum l1 := by
  rw [maxNum_append]
  have hle : maxNum l2 ≤ maxNum l1 :=
    maxNum_le _ _ (fun iss hiss => issueNum_le_maxNum _ _ (h iss hiss))
  exact Nat.max_eq_left hle

/- The identifier invariant: all ids are rendered suffixes bounded by the
ledger maximum, and pairwise distinct. -/

def IdInv (issues : List Issue) : Prop :=
  (issues.map Issue.id).Nodup ∧
  ∀ iss ∈ issues, ∃ k, iss.id = renderId k ∧ k ≤ maxNum issues

lemma IdInv_nil : IdInv [] := ⟨List.nodup_nil, by simp⟩

lemma IdInv_append_new (issues : List Issue) (ni : Issue)
    (hInv : IdInv issues) (hid : ni.id = nextIssueId issues) :
    IdInv (issues ++ [ni]) := by
  obtain ⟨hnd, hbound⟩ := hInv
  have hnum : issueNum ni.id = maxNum issues + 1 := by
    rw [hid]
    unfold nextIssueId
    rw [issueNum_renderId]
  have hmax : maxNum (issues ++ [ni]) = maxNum issues + 1 := by
    rw [maxNum_append]
    have : maxNum [ni] = maxNum issues + 1 := by
      unfold maxNum
      rw [List.map_singleton]
      rw [show ([issueNum ni.id].foldr max 0) = max (issueNum ni.id) 0 from rfl]
      rw [hnum]
      exact Nat.max_eq_left (by omega)
    rw [this]
    exact Nat.max_eq_right (by omega)
  constructor
  · rw [List.map_append, List.nodup_append]
    refine ⟨hnd, List.nodup_singleton _, ?_⟩
    intro a ha hb
    rw [List.map_singleton, List.mem_singleton] at hb
    subst hb
    rcases List.mem_map.mp ha with ⟨iss, hiss, hida⟩
    rcases hbound iss hiss with ⟨k, hk, hkle⟩
    have h1 : issueNum iss.id = k := by
      rw [hk, issueNum_renderId]
    rw [hida] at h1
    rw [hnum] at h1
    omega
  · intro iss hiss
    rcases List.mem_append.mp hiss with h | h
    · rcases hbound iss h with ⟨k, hk, hkle⟩
      refine ⟨k, hk, ?_⟩
      rw [hmax]
      omega
    · rw [List.mem_singleton] at h
      subst h
      refine ⟨maxNum issues + 1, hid, ?_⟩
      rw [hmax]

/- Identifier preservation through the engine operations. -/

lemma applyUpdate_id (round : Nat) (iss : Issue) (pu : PriorUpdate) :
    (applyUpdate round iss pu).id = iss.id := by
  unfold applyUpdate
  dsimp only
  split <;> rfl

lemma applyPriorUpdates_map_id (updates : List PriorUpdate) (round : Nat)
    (issues : List Issue) :
    (applyPriorUpdates updates round issues).map Issue.id = issues.map Issue.id := by
  unfold applyPriorUpdates
  rw [List.map_map]
  apply List.map_congr_left
  intro iss _
  simp only [Function.comp]
  cases hlook : priorLookup updates iss.id with
  | none => rfl
  | some pu => exact applyUpdate_id round iss pu

lemma IdInv_of_map_id_eq (l1 l2 : List Issue)
    (h : l2.map Issue.id = l1.map Issue.id) (hInv : IdInv l1) : IdInv l2 := by
  obtain ⟨hnd, hb⟩ := hInv
  have hnum : l2.map (fun iss => issueNum iss.id) = l1.map (fun iss => issueNum iss.id) := by
    have h2 := congrArg (List.map issueNum) h
    simpa [List.map_map, Function.comp] using h2
  have hmax : maxNum l2 = maxNum l1 := by
    unfold maxNum
    rw [hnum]
  constructor
  · rw [h]
    exact hnd
  · intro iss hiss
    have hmem : iss.id ∈ l2.map Issue.id := List.mem_map_of_mem _ hiss
    rw [h] at hmem
    rcases List.mem_map.mp hmem with ⟨src, hsrc, hideq⟩
    rcases hb src hsrc with ⟨k, hk, hkle⟩
    refine ⟨k, ?_, ?_⟩
    · rw [← hideq, hk]
    · rw [hmax]
      exact hkle

lemma registerStep_issues (openIssues : List Issue) (round idx : Nat) (st : RegState)
    (ni : NewIssue) :
    (registerStep openIssues round idx st ni).issues =
      st.issues ++ [{ id := nextIssueId (st.issues ++ st.assigned), severity := ni.severity,
                      location := ni.location, problem := ni.problem, fix := ni.fix,
                      status := "open", round_found := round, round_resolved := none,
                      last_evidence := none }] := rfl

lemma registerStep_assigned (openIssues : List Issue) (round idx : Nat) (st : RegState)
    (ni : NewIssue) :
    (registerStep openIssues round idx st ni).assigned =
      st.assigned ++ [{ id := nextIssueId (st.issues ++ st.assigned), severity := ni.severity,
                        location := ni.location, problem := ni.problem, fix := ni.fix,
                        status := "open", round_found := round, round_resolved := none,
                        last_evidence := none }] := rfl

lemma registerStep_preserves (openIssues : List Issue) (round idx : Nat) (st : RegState)
    (ni : NewIssue)
    (h : IdInv st.issues ∧ ∀ a ∈ st.assigned, a ∈ st.issues) :
    IdInv (registerStep openIssues round idx st ni).issues ∧
      ∀ a ∈ (registerStep openIssues round idx st ni).assigned,
        a ∈ (registerStep openIssues round idx st ni).issues := by
  obtain ⟨hInv, hsub⟩ := h
  have hid : nextIssueId (st.issues ++ st.assigned) = nextIssueId st.issues := by
    unfold nextIssueId
    rw [maxNum_append_subset st.issues st.assigned hsub]
  rw [registerStep_issues, registerStep_assigned]
  constructor
  · apply IdInv_append_new st.issues _ hInv
    rw [hid]
  · intro a ha
    rcases List.mem_append.mp ha with h1 | h1
    · exact List.mem_append_left _ (hsub a h1)
    · exact List.mem_append_right _ h1

lemma registerLoop_preserves (openIssues : List Issue) (round : Nat) (l : List NewIssue) :
    ∀ (idx : Nat) (st : RegState),
      (IdInv st.issues ∧ ∀ a ∈ st.assigned, a ∈ st.issues) →
      IdInv (registerLoop openIssues round idx st l).issues := by
  induction l with
  | nil =>
    intro idx st h
    exact h.1
  | cons ni rest ih =>
    intro idx st h
    rw [registerLoop]
    exact ih _ _ (registerStep_preserves openIssues round idx st ni h)

lemma cmdParseRound_preserves_IdInv (issues : List Issue) (round : Nat)
    (ex : Except String ReviewResponse) (h : IdInv issues) :
    IdInv (cmdParseRound issues round ex).2 := by
  match ex with
  | Except.error m => exact h
  | Except.ok parsed =>
    by_cases hv : (validateReviewResponse parsed).isEmpty = true
    · show IdInv ((if (validateReviewResponse parsed).isEmpty = true then _ else _) :
        Except ParseRoundError RoundOutput × List Issue).2
      rw [if_pos hv]
      apply registerLoop_preserves
      constructor
      · exact IdInv_of_map_id_eq issues _ (applyPriorUpdates_map_id parsed.prior_issues round issues) h
      · intro a ha
        simp at ha
    · show IdInv ((if (validateReviewResponse parsed).isEmpty = true then _ else _) :
        Except ParseRoundError RoundOutput × List Issue).2
      rw [if_neg hv]
      exact h

lemma forceApproveIssues_map_id (issues blockers : List Issue) (currentRound : Nat) :
    (forceApproveIssues issues blockers currentRound).map Issue.id = issues.map Issue.id := by
  unfold forceApproveIssues
  rw [List.map_map]
  apply List.map_congr_left
  intro iss _
  simp only [Function.comp]
  split <;> rfl

lemma cmdFinalize_snd_cases (issues : List Issue) (currentRound : Nat)
    (overrideReason : Option String) (ciForce isTTY : Bool) (ttyInput actor ts : String) :
    (cmdFinalize issues currentRound overrideReason ciForce isTTY ttyInput actor ts).2 = issues ∨
    (cmdFinalize issues currentRound overrideReason ciForce isTTY ttyInput actor ts).2 =
      forceApproveIssues issues (getOpenBlockers issues) currentRound := by
  unfold cmdFinalize
  dsimp only
  split
  · left; rfl
  · split
    · left; rfl
    · split
      · left; rfl
      · split
        · split
          · right; rfl
          · left; rfl
        · split
          · left; rfl
          · right; rfl

lemma cmdFinalize_preserves_IdInv (issues : List Issue) (currentRound : Nat)
    (overrideReason : Option String) (ciForce isTTY : Bool) (ttyInput actor ts : String)
    (h : IdInv issues) :
    IdInv (cmdFinalize issues currentRound overrideReason ciForce isTTY ttyInput actor ts).2 := by
  rcases cmdFinalize_snd_cases issues currentRound overrideReason ciForce isTTY ttyInput actor ts
    with heq | heq
  · rw [heq]
    exact h
  · rw [heq]
    exact IdInv_of_map_id_eq issues _
      (forceApproveIssues_map_id issues (getOpenBlockers issues) currentRound) h

lemma processOps_IdInv (ops : List Op) : ∀ issues, IdInv issues →
    IdInv (processOps ops issues) := by
  induction ops with
  | nil =>
    intro issues h
    exact h
  | cons op rest ih =>
    intro issues h
    rw [processOps]
    apply ih
    cases op with
    | parseRound round ex =>
      exact cmdParseRound_preserves_IdInv issues round ex h
    | finalize currentRound reason ciForce isTTY ttyInput actor ts =>
      exact cmdFinalize_preserves_IdInv issues currentRound reason ciForce isTTY ttyInput
        actor ts h

/-- Claim C5: across any sequence of engine invocations starting from the
empty ledger created by init, no two ledger issues ever share an
identifier; since resolved issues stay in the ledger and the next
identifier is computed from the maximum suffix over all of them, an
identifier is never reused after its issue is resolved. -/
theorem c5_identifier_uniqueness (ops : List Op) :
    ((processOps ops []).map Issue.id).Nodup :=
  (processOps_IdInv ops [] IdInv_nil).1

/- The resolution-stamp invariant. -/

lemma priorLookup_mem (updates : List PriorUpdate) (id : String) (pu : PriorUpdate)
    (h : priorLookup updates id = some pu) : pu ∈ updates := by
  induction updates using List.reverseRecOn with
  | nil => simp [priorLookup] at h
  | append_singleton rest pu2 ih =>
    rw [priorLookup_append] at h
    by_cases h2 : pu2.id == id
    · rw [if_pos h2] at h
      rw [Option.some.injEq] at h
      subst h
      exact List.mem_append_right _ (by simp)
    · rw [if_neg h2] at h
      exact List.mem_append_left _ (ih h)

lemma applyUpdate_fields (round : Nat) (iss : Issue) (pu : PriorUpdate) :
    (applyUpdate round iss pu).status = pu.status ∧
    (applyUpdate round iss pu).round_resolved =
      (if pu.status == "resolved" || pu.status == "not-applicable" then some round
       else iss.round_resolved) := by
  unfold applyUpdate
  dsimp only
  constructor
  · split <;> rfl
  · split <;> rfl

/-- The invariant that actually holds of resolution stamps: an issue whose
status is resolved, not-applicable or force-approved carries a non-null
round_resolved.  The converse direction of the claim fails (see the
counterexample). -/
def RRInv (issues : List Issue) : Prop :=
  ∀ iss ∈ issues,
    (iss.status = "resolved" ∨ iss.status = "not-applicable" ∨ iss.status = "force-approved") →
    iss.round_resolved ≠ none

lemma RRInv_nil : RRInv [] := by
  intro iss hiss
  simp at hiss

lemma applyPriorUpdates_RRInv (updates : List PriorUpdate) (round : Nat) (issues : List Issue)
    (hval : ∀ pu ∈ updates, VALID_STATUSES.contains pu.status = true)
    (h : RRInv issues) : RRInv (applyPriorUpdates updates round issues) := by
  intro iss hiss hstat
  unfold applyPriorUpdates at hiss
  rcases List.mem_map.mp hiss with ⟨src, hsrc, heq⟩
  cases hlook : priorLookup updates src.id with
  | none =>
    rw [hlook] at heq
    subst heq
    exact h src hsrc hstat
  | some pu =>
    rw [hlook] at heq
    subst heq
    obtain ⟨hst, hrr⟩ := applyUpdate_fields round src pu
    rw [hst] at hstat
    have hv := statuses_cases_of_contains (hval pu (priorLookup_mem _ _ _ hlook))
    rcases hv with h1 | h1 | h1 | h1
    · rw [hrr, if_pos (by rw [h1]; decide)]
      simp
    · rw [h1] at hstat
      rcases hstat with h2 | h2 | h2 <;> exact absurd h2 (by decide)
    · rw [h1] at hstat
      rcases hstat with h2 | h2 | h2 <;> exact absurd h2 (by decide)
    · rw [hrr, if_pos (by rw [h1]; decide)]
      simp

lemma registerStep_RRInv (openIssues : List Issue) (round idx : Nat) (st : RegState)
    (ni : NewIssue) (h : RRInv st.issues) :
    RRInv (registerStep openIssues round idx st ni).issues := by
  rw [registerStep_issues]
  intro iss hiss hstat
  rcases List.mem_append.mp hiss with h1 | h1
  · exact h iss h1 hstat
  · rw [List.mem_singleton] at h1
    subst h1
    rcases hstat with h2 | h2 | h2 <;> simp at h2

lemma registerLoop_RRInv (openIssues : List Issue) (round : Nat) (l : List NewIssue) :
    ∀ (idx : Nat) (st : RegState), RRInv st.issues →
      RRInv (registerLoop openIssues round idx st l).issues := by
  induction l with
  | nil =>
    intro idx st h
    exact h
  | cons ni rest ih =>
    intro idx st h
    rw [registerLoop]
    exact ih _ _ (registerStep_RRInv openIssues round idx st ni h)

lemma cmdParseRound_RRInv (issues : List Issue) (round : Nat)
    (ex : Except String ReviewResponse) (h : RRInv issues) :
    RRInv (cmdParseRound issues round ex).2 := by
  match ex with
  | Except.error m => exact h
  | Except.ok parsed =>
    by_cases hv : (validateReviewResponse parsed).isEmpty = true
    · show RRInv ((if (validateReviewResponse parsed).isEmpty = true then _ else _) :
        Except ParseRoundError RoundOutput × List Issue).2
      rw [if_pos hv]
      apply registerLoop_RRInv
      have hnil : validateReviewResponse parsed = [] := List.isEmpty_iff.mp hv
      have hval := (priorIssueErrors_nil_iff parsed.prior_issues).mp
        ((validate_nil_iff parsed).mp hnil).2.1
      exact applyPriorUpdates_RRInv parsed.prior_issues round issues
        (fun pu hpu => (hval pu hpu).2) h
    · show RRInv ((if (validateReviewResponse parsed).isEmpty = true then _ else _) :
        Except ParseRoundError RoundOutput × List Issue).2
      rw [if_neg hv]
      exact h

lemma forceApproveIssues_RRInv (issues blockers : List Issue) (currentRound : Nat)
    (h : RRInv issues) : RRInv (forceApproveIssues issues blockers currentRound) := by
  intro iss hiss hstat
  unfold forceApproveIssues at hiss
  rcases List.mem_map.mp hiss with ⟨src, hsrc, heq⟩
  by_cases hc : blockers.any (fun b => b.id == src.id) = true
  · rw [if_pos hc] at heq
    subst heq
    simp
  · rw [if_neg hc] at heq
    subst heq
    exact h src hsrc hstat

lemma cmdFinalize_RRInv (issues : List Issue) (currentRound : Nat)
    (overrideReason : Option String) (ciForce isTTY : Bool) (ttyInput actor ts : String)
    (h : RRInv issues) :
    RRInv (cmdFinalize issues currentRound overrideReason ciForce isTTY ttyInput actor ts).2 := by
  rcases cmdFinalize_snd_cases issues currentRound overrideReason ciForce isTTY ttyInput actor ts
    with heq | heq
  · rw [heq]
    exact h
  · rw [heq]
    exact forceApproveIssues_RRInv issues (getOpenBlockers issues) currentRound h

lemma processOps_RRInv (ops : List Op) : ∀ issues, RRInv issues →
    RRInv (processOps ops issues) := by
  induction ops with
  | nil =>
    intro issues h
    exact h
  | cons op rest ih =>
    intro issues h
    rw [processOps]
    apply ih
    cases op with
    | parseRound round ex => exact cmdParseRound_RRInv issues round ex h
    | finalize currentRound reason ciForce isTTY ttyInput actor ts =>
      exact cmdFinalize_RRInv issues currentRound reason ciForce isTTY ttyInput actor ts h

/-- The ledger produced by registering a CRITICAL issue in round one,
resolving it in round two and marking it regressed in round three: the
stale round-two resolution stamp survives the regression. -/
def c7ops : List Op :=
  [Op.parseRound 1 (Except.ok
    { verdict := "REVISE", prior_issues := [],
      new_issues := [{ severity := "CRITICAL", location := "Core", problem := "Fatal flaw",
                       fix := "Fix it" }],
      summary := "s1" }),
   Op.parseRound 2 (Except.ok
    { verdict := "APPROVED",
      prior_issues := [{ id := "ISS-001", status := "resolved", evidence := none }],
      new_issues := [], summary := "s2" }),
   Op.parseRound 3 (Except.ok
    { verdict := "REVISE",
      prior_issues := [{ id := "ISS-001", status := "regressed", evidence := none }],
      new_issues := [], summary := "s3" })]

def c7bad : Issue :=
  { id := "ISS-001", severity := "CRITICAL", location := "Core", problem := "Fatal flaw",
    fix := "Fix it", status := "regressed", round_found := 1, round_resolved := some 2,
    last_evidence := none }

/-- Counterexample to C7 as stated: after resolving in round two and
regressing in round three, the issue has status regressed while
round_resolved is still the round-two stamp, not null again. -/
theorem c7_counterexample :
    processOps c7ops [] = [c7bad] ∧
    c7bad.status = "regressed" ∧ c7bad.round_resolved = some 2 := by
  decide

/-- Claim C7 (amended): for every issue in the ledger after any sequence
of round-processing and finalize operations, round_resolved is non-null
whenever the status is resolved, not-applicable or force-approved; the
converse fails, since changing a resolved issue back to still-open or
regressed leaves the stale round_resolved stamp in place. -/
theorem c7_amended_round_resolved_stamp (ops : List Op) (iss : Issue)
    (h : iss ∈ processOps ops [])
    (hs : iss.status = "resolved" ∨ iss.status = "not-applicable" ∨
      iss.status = "force-approved") :
    iss.round_resolved ≠ none :=
  processOps_RRInv ops [] RRInv_nil iss h hs

/-- The two-round run for the C7 witness: register then resolve. -/
def c7ops2 : List Op :=
  [Op.parseRound 1 (Except.ok
    { verdict := "REVISE", prior_issues := [],
      new_issues := [{ severity := "CRITICAL", location := "Core", problem := "Fatal flaw",
                       fix := "Fix it" }],
      summary := "s1" }),
   Op.parseRound 2 (Except.ok
    { verdict := "APPROVED",
      prior_issues := [{ id := "ISS-001", status := "resolved", evidence := none }],
      new_issues := [], summary := "s2" })]

def c7resolved : Issue :=
  { id := "ISS-001", severity := "CRITICAL", location := "Core", problem := "Fatal flaw",
    fix := "Fix it", status := "resolved", round_found := 1, round_resolved := some 2,
    last_evidence := none }

/-- Witness for the amended C7 at the concrete two-round run. -/
theorem c7_witness :
    c7resolved ∈ processOps c7ops2 [] ∧ c7resolved.round_resolved ≠ none :=
  ⟨by decide, c7_amended_round_resolved_stamp c7ops2 c7resolved (by decide) (Or.inl rfl)⟩

/- Provenance of dedup warnings: every warning names an issue of the open
snapshot taken before the registration loop, and the ids assigned during
the loop are fresh with respect to that snapshot. -/

lemma bestMatch_eq_fold (p : String) (l : List Issue) :
    bestMatch p l = List.foldl (fun acc iss =>
      if acc.1 < jaccardSimilarity p iss.problem
      then (jaccardSimilarity p iss.problem, some iss.id) else acc) ((0 : ℚ), none) l := rfl

lemma bestMatch_fold_cases (p : String) (l : List Issue) :
    ∀ acc : ℚ × Option String,
      List.foldl (fun acc iss =>
        if acc.1 < jaccardSimilarity p iss.problem
        then (jaccardSimilarity p iss.problem, some iss.id) else acc) acc l = acc ∨
      ∃ iss ∈ l, (List.foldl (fun acc iss =>
        if acc.1 < jaccardSimilarity p iss.problem
        then (jaccardSimilarity p iss.problem, some iss.id) else acc) acc l).2 =
          some iss.id := by
  induction l with
  | nil =>
    intro acc
    left
    rfl
  | cons iss rest ih =>
    intro acc
    rw [List.foldl_cons]
    by_cases hc : acc.1 < jaccardSimilarity p iss.problem
    · rw [if_pos hc]
      rcases ih (jaccardSimilarity p iss.problem, some iss.id) with h | ⟨iss2, hmem, h⟩
      · right
        exact ⟨iss, List.mem_cons_self _ _, by rw [h]⟩
      · right
        exact ⟨iss2, List.mem_cons_of_mem _ hmem, h⟩
    · rw [if_neg hc]
      rcases ih acc with h | ⟨iss2, hmem, h⟩
      · left
        exact h
      · right
        exact ⟨iss2, List.mem_cons_of_mem _ hmem, h⟩

lemma bestMatch_spec (p : String) (l : List Issue) :
    ((bestMatch p l).1 = 0 ∧ (bestMatch p l).2 = none) ∨
    ∃ iss ∈ l, (bestMatch p l).2 = some iss.id := by
  rw [bestMatch_eq_fold]
  rcases bestMatch_fold_cases p l ((0 : ℚ), none) with h | h
  · left
    rw [h]
    exact ⟨rfl, rfl⟩
  · right
    exact h

lemma registerStep_warnings (openIssues : List Issue) (round idx : Nat) (st : RegState)
    (ni : NewIssue) :
    (registerStep openIssues round idx st ni).warnings =
      (if mkRat 6 10 ≤ (bestMatch ni.problem openIssues).1 then
        st.warnings ++
          [{ new_issue_index := idx
             possible_duplicate_of := (bestMatch ni.problem openIssues).2
             similarity := round2 (bestMatch ni.problem openIssues).1
             note := "New issue overlaps significantly with " ++
               (bestMatch ni.problem openIssues).2.getD "null" ++
               ". Confirm if distinct." }]
      else st.warnings) := rfl

lemma registerStep_provenance (openIssues : List Issue) (round idx : Nat) (st : RegState)
    (ni : NewIssue)
    (hsub : ∀ o ∈ openIssues, o ∈ st.issues)
    (hw : ∀ w ∈ st.warnings, ∃ dup, w.possible_duplicate_of = some dup ∧
      dup ∈ openIssues.map Issue.id)
    (hfresh : ∀ a ∈ st.assigned, ∀ o ∈ openIssues, o.id ≠ a.id) :
    (∀ o ∈ openIssues, o ∈ (registerStep openIssues round idx st ni).issues) ∧
    (∀ w ∈ (registerStep openIssues round idx st ni).warnings,
      ∃ dup, w.possible_duplicate_of = some dup ∧ dup ∈ openIssues.map Issue.id) ∧
    (∀ a ∈ (registerStep openIssues round idx st ni).assigned, ∀ o ∈ openIssues,
      o.id ≠ a.id) ∧
    (registerStep openIssues round idx st ni).issues.length = st.issues.length + 1 := by
  refine ⟨?_, ?_, ?_, ?_⟩
  · intro o ho
    rw [registerStep_issues]
    exact List.mem_append_left _ (hsub o ho)
  · intro w hwmem
    rw [registerStep_warnings] at hwmem
    by_cases hth : mkRat 6 10 ≤ (bestMatch ni.problem openIssues).1
    · rw [if_pos hth] at hwmem
      rcases List.mem_append.mp hwmem with h1 | h1
      · exact hw w h1
      · rw [List.mem_singleton] at h1
        subst h1
        rcases bestMatch_spec ni.problem openIssues with ⟨h0, _⟩ | ⟨iss, hmem, hsome⟩
        · rw [h0] at hth
          exact absurd hth (by decide)
        · exact ⟨iss.id, hsome, List.mem_map_of_mem _ hmem⟩
    · rw [if_neg hth] at hwmem
      exact hw w hwmem
  · intro a ha o ho
    rw [registerStep_assigned] at ha
    rcases List.mem_append.mp ha with h1 | h1
    · exact hfresh a h1 o ho
    · rw [List.mem_singleton] at h1
      subst h1
      intro hEq
      have h3 : issueNum o.id ≤ maxNum (st.issues ++ st.assigned) := by
        rw [maxNum_append]
        exact le_trans (issueNum_le_maxNum _ _ (hsub o ho)) (Nat.le_max_left _ _)
      have h4 : issueNum o.id = maxNum (st.issues ++ st.assigned) + 1 := by
        rw [hEq]
        show issueNum (nextIssueId (st.issues ++ st.assigned)) = _
        unfold nextIssueId
        exact issueNum_renderId _
      omega
  · rw [registerStep_issues]
    simp

lemma registerLoop_provenance (openIssues : List Issue) (round : Nat) (l : List NewIssue) :
    ∀ (idx : Nat) (st : RegState),
      (∀ o ∈ openIssues, o ∈ st.issues) →
      (∀ w ∈ st.warnings, ∃ dup, w.possible_duplicate_of = some dup ∧
        dup ∈ openIssues.map Issue.id) →
      (∀ a ∈ st.assigned, ∀ o ∈ openIssues, o.id ≠ a.id) →
      (∀ w ∈ (registerLoop openIssues round idx st l).warnings,
        ∃ dup, w.possible_duplicate_of = some dup ∧ dup ∈ openIssues.map Issue.id) ∧
      (∀ a ∈ (registerLoop openIssues round idx st l).assigned, ∀ o ∈ openIssues,
        o.id ≠ a.id) ∧
      (registerLoop openIssues round idx st l).issues.length =
        st.issues.length + l.length := by
  induction l with
  | nil =>
    intro idx st hsub hw hfresh
    exact ⟨hw, hfresh, rfl⟩
  | cons ni rest ih =>
    intro idx st hsub hw hfresh
    rw [registerLoop]
    obtain ⟨hsub2, hw2, hfresh2, hlen2⟩ :=
      registerStep_provenance openIssues round idx st ni hsub hw hfresh
    obtain ⟨hA, hB, hC⟩ := ih (idx + 1) _ hsub2 hw2 hfresh2
    refine ⟨hA, hB, ?_⟩
    rw [hC, hlen2, List.length_cons]
    omega

/-- Claim C3 (amended): on any ledger, dedup comparisons run only against
the snapshot of issues open after the prior-issue updates and before the
registration loop; every emitted warning names an id from that snapshot,
and never the id of an issue registered in the same round, so two new
issues of one round are never flagged against each other, however similar
their problem texts; every new issue is still registered as its own
ledger entry. -/
theorem c3_amended_no_intra_round_dedup (issues : List Issue) (round : Nat)
    (parsed : ReviewResponse) (out : RoundOutput) (post : List Issue)
    (h : cmdParseRound issues round (Except.ok parsed) = (Except.ok out, post)) :
    (∀ w ∈ out.dedupWarnings, ∃ dup, w.possible_duplicate_of = some dup ∧
      dup ∈ ((applyPriorUpdates parsed.prior_issues round issues).filter (fun i =>
        i.status == "open" || i.status == "still-open" || i.status == "regressed")).map
        Issue.id) ∧
    (∀ w ∈ out.dedupWarnings, ∀ dup, w.possible_duplicate_of = some dup →
      dup ∉ out.newIssues) ∧
    post.length = issues.length + parsed.new_issues.length := by
  rw [cmdParseRound] at h
  by_cases hv : (validateReviewResponse parsed).isEmpty
  · rw [if_pos hv] at h
    simp only [Prod.mk.injEq, Except.ok.injEq] at h
    obtain ⟨hout, hpost⟩ := h
    subst hout
    subst hpost
    obtain ⟨hA, hB, hC⟩ := registerLoop_provenance
      ((applyPriorUpdates parsed.prior_issues round issues).filter (fun i =>
        i.status == "open" || i.status == "still-open" || i.status == "regressed"))
      round parsed.new_issues 0
      { issues := applyPriorUpdates parsed.prior_issues round issues, assigned := [],
        warnings := [] }
      (fun o ho => List.mem_of_mem_filter ho)
      (by intro w hw; simp at hw)
      (by intro a ha; simp at ha)
    refine ⟨hA, ?_, ?_⟩
    · intro w hwmem dup hdup hcontra
      rcases hA w hwmem with ⟨dup2, hdup2, hdupmem⟩
      rw [hdup, Option.some.injEq] at hdup2
      subst hdup2
      rcases List.mem_map.mp hcontra with ⟨a, hamem, haid⟩
      rcases List.mem_map.mp hdupmem with ⟨o, homem, hoid⟩
      exact hB a hamem o homem (by rw [hoid, ← haid])
    · rw [hC]
      show (applyPriorUpdates parsed.prior_issues round issues).length +
        parsed.new_issues.length = issues.length + parsed.new_issues.length
      unfold applyPriorUpdates
      rw [List.length_map]
  · rw [if_neg hv] at h
    simp at h

/-- The pre-round ledger of the C3 witness: one open HIGH issue whose
problem text tokenizes to the empty word set. -/
def c3pre : List Issue :=
  [{ id := "ISS-001", severity := "HIGH", location := "Auth", problem := "???",
     fix := "f0", status := "open", round_found := 1, round_resolved := none,
     last_evidence := none }]

/-- The round-two submission of the C3 witness: two new issues whose
problem texts also tokenize to the empty word set, so each scores
similarity one against the open snapshot issue and against the other new
issue of the same round. -/
def c3resp : ReviewResponse :=
  { verdict := "REVISE", prior_issues := [],
    new_issues := [{ severity := "HIGH", location := "Auth", problem := "!!!", fix := "f1" },
                   { severity := "HIGH", location := "Auth", problem := "...", fix := "f2" }],
    summary := "s" }

/-- The outcome of the witness round: both warnings name the snapshot
issue ISS-001; neither names the same-round sibling ISS-002 or ISS-003. -/
def c3out : RoundOutput :=
  { round := 2, verdict := "REVISE", reviewVerdict := "REVISE", summary := "s",
    newIssues := ["ISS-002", "ISS-003"],
    dedupWarnings :=
      [{ new_issue_index := 0, possible_duplicate_of := some "ISS-001",
         similarity := round2 1,
         note := "New issue overlaps significantly with ISS-001. Confirm if distinct." },
       { new_issue_index := 1, possible_duplicate_of := some "ISS-001",
         similarity := round2 1,
         note := "New issue overlaps significantly with ISS-001. Confirm if distinct." }],
    blockers := ["ISS-001", "ISS-002", "ISS-003"] }

def c3post : List Issue :=
  [{ id := "ISS-001", severity := "HIGH", location := "Auth", problem := "???",
     fix := "f0", status := "open", round_found := 1, round_resolved := none,
     last_evidence := none },
   { id := "ISS-002", severity := "HIGH", location := "Auth", problem := "!!!",
     fix := "f1", status := "open", round_found := 2, round_resolved := none,
     last_evidence := none },
   { id := "ISS-003", severity := "HIGH", location := "Auth", problem := "...",
     fix := "f2", status := "open", round_found := 2, round_resolved := none,
     last_evidence := none }]

/-- Witness for the amended C3 at a concrete round on a non-empty ledger:
two dedup warnings fire, both naming the pre-round snapshot issue, and
neither names an id assigned in the same round. -/
theorem c3_witness :
    (∀ w ∈ c3out.dedupWarnings, ∃ dup, w.possible_duplicate_of = some dup ∧
      dup ∈ ((applyPriorUpdates c3resp.prior_issues 2 c3pre).filter (fun i =>
        i.status == "open" || i.status == "still-open" || i.status == "regressed")).map
        Issue.id) ∧
    (∀ w ∈ c3out.dedupWarnings, ∀ dup, w.possible_duplicate_of = some dup →
      dup ∉ c3out.newIssues) ∧
    c3post.length = c3pre.length + c3resp.new_issues.length :=
  c3_amended_no_intra_round_dedup c3pre 2 c3resp c3out c3post (by rfl)
